import Mathlib

/-!
Shallow embedding of the synchronization engine of FTPSync.py
(SublimeText2-FTPSync).  Each Python function relevant to the verified
claims is translated into an executable Lean definition: dictionaries
become association lists (iteration order = list order), exceptions
become explicit result constructors, and the opaque remote handles become
small structures carrying exactly the fields the source inspects.
-/

namespace FTPSync

/- ==== Connection pool (getConnection, FTPSync.py lines 459-575) ==== -/

/-- A live remote connection handle as cached in the `connections` pool.
`configHash` models `getObjectHash(connection.config)`, the hash of the
per-connection properties the handle was built from; `alive` models
`connection.isAlive()`. -/
structure Handle where
  name : String
  configHash : Nat
  alive : Bool
  deriving DecidableEq, Repr

/-- One declared connection of `config` (the `connections` mapping), in
dict iteration order.  `propsHash` models
`getObjectHash(config[name])`; `buildOk` abstracts whether the
five-stage build pipeline (construct, connect, authenticate, login, cwd)
succeeds for this name. -/
structure ConnDecl where
  name : String
  propsHash : Nat
  buildOk : Bool
  deriving DecidableEq, Repr

/-- The handle produced for a declared connection whose build pipeline
succeeded: it carries the declared properties and is alive. -/
def mkHandle (d : ConnDecl) : Handle :=
  ⟨d.name, d.propsHash, true⟩

/-- The rebuild loop of `getConnection` (cache-miss branch): each declared
connection is built unless a pipeline stage fails, and a connection whose
name is already present in the pool built so far is not appended. -/
def buildPoolAux (acc : List Handle) : List ConnDecl → List Handle
  | [] => acc
  | d :: rest =>
    if d.buildOk then
      if acc.any (fun c => c.name == d.name) then buildPoolAux acc rest
      else buildPoolAux (acc ++ [mkHandle d]) rest
    else buildPoolAux acc rest

def buildPool (decls : List ConnDecl) : List Handle :=
  buildPoolAux [] decls

/-- The per-index config-hash comparison loop of `getConnection`: the
source walks the declared connections with a running index into the
cached list.  The preceding length guard ensures the cached list is at
least as long as the declaration list, so the shorter-list case below is
unreachable there; extra cached handles beyond the declared count are not
compared, as in the source. -/
def hashesMatch : List Handle → List ConnDecl → Bool
  | _, [] => true
  | [], _ :: _ => false
  | h :: hs, d :: ds => (h.configHash == d.propsHash) && hashesMatch hs ds

structure GetConnResult where
  pool : List Handle
  closedStale : List Handle
  rebuilt : Bool
  deriving DecidableEq, Repr

/-- `getConnection(hash, config)`: validates the cached pool (length,
per-connection config hashes, liveness, in that order) and returns it
when all checks pass; otherwise rebuilds.  Only the hash-mismatch branch
closes the cached handles (the `connection.close` loop); the length and
liveness failures raise `KeyError` directly and the stale handles are
merely overwritten by the `connections` entry being reset to an empty
list before the rebuild. -/
def getConnection (cached : Option (List Handle)) (decls : List ConnDecl) : GetConnResult :=
  match cached with
  | Option.none => ⟨buildPool decls, [], true⟩
  | some entry =>
    if entry.length < decls.length then ⟨buildPool decls, [], true⟩
    else if hashesMatch entry decls then
      if entry.all (fun h => h.alive) then ⟨entry, [], false⟩
      else ⟨buildPool decls, [], true⟩
    else ⟨buildPool decls, entry, true⟩

/- ==== Scheduled delayed uploads (SyncCommandUpload.execute, 781-831) ==== -/

/-- One path of the scheduled-upload machinery: `scheduled` models the
`scheduledUploads` entry for the path (absent = `Option.none`),
`transfers` the sequence of `connection.put` calls performed, identified
by the token of the action that made them. -/
structure UploadSched where
  scheduled : Option Nat
  transfers : List Nat
  deriving DecidableEq, Repr

inductive UploadEvent where
  | schedule (token : Nat)
  | fire (token : Nat)
  deriving DecidableEq, Repr

/-- `schedule` models storing a fresh `os.urandom` token into
`scheduledUploads` for the file path; `fire` models the delayed
`action()` body: an action whose token no longer matches the map entry
returns without transferring, a matching token performs the `put` and
pops the map entry.  (A fire after the entry was popped raises `KeyError`
in the source, swallowed by the blanket handler of `action`; observably
it also performs no transfer, like the mismatch branch here.) -/
def uploadStep (s : UploadSched) : UploadEvent → UploadSched
  | .schedule t => ⟨some t, s.transfers⟩
  | .fire t =>
    if s.scheduled = some t then ⟨Option.none, s.transfers ++ [t]⟩
    else s

def uploadRun (s : UploadSched) : List UploadEvent → UploadSched
  | [] => s
  | e :: es => uploadRun (uploadStep s e) es

/- ==== Config verification (verifyConfig, 315-373) ==== -/

/-- Python values as far as `verifyConfig` distinguishes them (ints and
longs are collapsed into one integer constructor; list and dict payloads
are never inspected by the checks). -/
inductive PyVal where
  | null
  | str (s : String)
  | bool (b : Bool)
  | int (n : Int)
  | list
  | dict
  deriving DecidableEq, Repr

/-- Outcome of `verifyConfig`: `ok` is the Python `True`, `fail` a
returned diagnostic string, `keyError` a raised Python `KeyError` on a
missing subscript. -/
inductive VerifyResult where
  | ok
  | fail (msg : String)
  | keyError (key : String)
  deriving DecidableEq, Repr

/-- Dictionary lookup (association list keyed by strings). -/
def lookupAssoc {α : Type} (c : List (String × α)) (k : String) : Option α :=
  match c.find? (fun e => e.1 == k) with
  | Option.none => Option.none
  | some e => some e.2

def isStrV : PyVal → Bool
  | .str _ => true
  | _ => false

/-- `config[k] is not None and isString(config[k]) is False` fails. -/
def nullOrStr (v : PyVal) : Bool :=
  (v == PyVal.null) || isStrV v

def isBoolV : PyVal → Bool
  | .bool _ => true
  | _ => false

def isIntV : PyVal → Bool
  | .int _ => true
  | _ => false

def nullOrList : PyVal → Bool
  | .null => true
  | .list => true
  | _ => false

def pyTypeName : PyVal → String
  | .null => "<type NoneType>"
  | .str _ => "<type str>"
  | .bool _ => "<type bool>"
  | .int _ => "<type int>"
  | .list => "<type list>"
  | .dict => "<type dict>"

/-- The `keys` presence list of `verifyConfig`, verbatim from the source;
note that `passive` is absent from it although its type is checked. -/
def requiredKeys : List String :=
  ["username", "password", "private_key", "private_key_pass", "path", "tls",
   "upload_on_save", "port", "timeout", "ignore", "check_time",
   "download_on_open", "upload_delay", "after_save_watch", "time_offset"]

/-- One `config[k]` subscript followed by a type test: a missing key is a
Python `KeyError`, a failing test returns the diagnostic message,
otherwise verification continues with `rest`. -/
def checkKey (c : List (String × PyVal)) (k : String) (tOk : PyVal → Bool)
    (msg : PyVal → String) (rest : VerifyResult) : VerifyResult :=
  match lookupAssoc c k with
  | Option.none => VerifyResult.keyError k
  | some v => if tOk v then rest else VerifyResult.fail (msg v)

/-- `verifyConfig(config)`: the presence loop over `requiredKeys` returns
a missing-key message for the first absent key; then the type checks run
in source order.  The `passive` check subscripts a key the presence loop
never guaranteed. -/
def verifyConfig (c : List (String × PyVal)) : VerifyResult :=
  match requiredKeys.find? (fun k => (lookupAssoc c k).isNone) with
  | some k => VerifyResult.fail ("Config is missing a \x7b" ++ k ++ "\x7d key")
  | Option.none =>
    checkKey c "username" nullOrStr
      (fun v => "Config entry username must be null or string, " ++ pyTypeName v ++ " given") <|
    checkKey c "password" nullOrStr
      (fun v => "Config entry password must be null or string, " ++ pyTypeName v ++ " given") <|
    checkKey c "private_key" nullOrStr
      (fun v => "Config entry private_key must be null or string, " ++ pyTypeName v ++ " given") <|
    checkKey c "private_key_pass" nullOrStr
      (fun v => "Config entry private_key_pass must be null or string, " ++ pyTypeName v ++ " given") <|
    checkKey c "ignore" nullOrStr
      (fun v => "Config entry ignore must be null or string, " ++ pyTypeName v ++ " given") <|
    checkKey c "path" isStrV
      (fun v => "Config entry path must be a string, " ++ pyTypeName v ++ " given") <|
    checkKey c "tls" isBoolV
      (fun v => "Config entry tls must be true or false, " ++ pyTypeName v ++ " given") <|
    checkKey c "passive" isBoolV
      (fun v => "Config entry passive must be true or false, " ++ pyTypeName v ++ " given") <|
    checkKey c "upload_on_save" isBoolV
      (fun v => "Config entry upload_on_save must be true or false, " ++ pyTypeName v ++ " given") <|
    checkKey c "check_time" isBoolV
      (fun v => "Config entry check_time must be true or false, " ++ pyTypeName v ++ " given") <|
    checkKey c "download_on_open" isBoolV
      (fun v => "Config entry download_on_open must be true or false, " ++ pyTypeName v ++ " given") <|
    checkKey c "upload_delay" isIntV
      (fun v => "Config entry upload_delay must be integer or long, " ++ pyTypeName v ++ " given") <|
    checkKey c "after_save_watch" nullOrList
      (fun v => "Config entry after_save_watch must be null or list, " ++ pyTypeName v ++ " given") <|
    checkKey c "port" isIntV
      (fun v => "Config entry port must be an integer or long, " ++ pyTypeName v ++ " given") <|
    checkKey c "timeout" isIntV
      (fun v => "Config entry timeout must be an integer or long, " ++ pyTypeName v ++ " given") <|
    checkKey c "time_offset" isIntV
      (fun v => "Config entry time_offset must be an integer or long, " ++ pyTypeName v ++ " given") <|
    VerifyResult.ok

/-- A merged connection entry with every key of the `keys` list present
at a valid type, but no `passive` key. -/
def configNoPassive : List (String × PyVal) :=
  [("username", PyVal.null), ("password", PyVal.null), ("private_key", PyVal.null),
   ("private_key_pass", PyVal.null), ("path", PyVal.str "/"), ("tls", PyVal.bool false),
   ("upload_on_save", PyVal.bool true), ("port", PyVal.int 21), ("timeout", PyVal.int 30),
   ("ignore", PyVal.null), ("check_time", PyVal.bool false),
   ("download_on_open", PyVal.bool false), ("upload_delay", PyVal.int 0),
   ("after_save_watch", PyVal.null), ("time_offset", PyVal.int 0)]

/-- The same entry with `passive` present, i.e. a fully valid entry. -/
def configFull : List (String × PyVal) :=
  configNoPassive ++ [("passive", PyVal.bool true)]

def removeKey (c : List (String × PyVal)) (k : String) : List (String × PyVal) :=
  c.filter (fun e => !(e.1 == k))

/- ==== Config file resolution and cache (getConfigFile, 225-252) ==== -/

def configName : String := "ftpsync.settings"

structure ResolveResult where
  result : Option String
  cache : List (String × Option String)
  walked : Bool
  deriving DecidableEq, Repr

/-- `getConfigFile(file_path)`: a cached key returns the stored value
without walking; on a miss the ancestor folders (deepest first, supplied
by the external `getFolders`) are searched for the marker filename
(`findFile`, abstracted as the `hasConfig` predicate over folders).  Only
a found config is stored into the cache: both not-found exits return
before the cache assignment. -/
def getConfigFile (folders : String → List String) (hasConfig : String → Bool)
    (cache : List (String × Option String)) (p : String) : ResolveResult :=
  match lookupAssoc cache p with
  | some v => ⟨v, cache, false⟩
  | Option.none =>
    if (folders p).isEmpty then ⟨Option.none, cache, true⟩
    else
      match (folders p).find? hasConfig with
      | Option.none => ⟨Option.none, cache, true⟩
      | some folder =>
        ⟨some (folder ++ "/" ++ configName),
         (p, some (folder ++ "/" ++ configName)) :: cache, true⟩

/- ==== Config cache invalidation (invalidateConfigCache, 199-202) ==== -/

inductive InvalidateResult where
  | ok (cache : List (String × Option String))
  | attributeError (cache : List (String × Option String))
  deriving DecidableEq, Repr

/-- Python `s.startswith(pre)`, written over the character lists so that
it evaluates by structural recursion. -/
def startsWithPy (s pre : String) : Bool :=
  pre.data.isPrefixOf s.data

/-- The match condition of the invalidation loop: the entry key starts
with the directory, and the stored value is `None` or is a string
prefix of the directory. -/
def invalidateMatches (dir : String) (e : String × Option String) : Bool :=
  startsWithPy e.1 dir &&
    (match e.2 with
     | Option.none => true
     | some v => startsWithPy dir v)

/-- `invalidateConfigCache(config_dir_name)`: iterates the config cache;
on the first matching entry it calls `configs.remove(...)`, but `configs`
is a dict and dicts have no `remove` method, so an `AttributeError` is
raised and nothing is removed; with no matching entry the loop completes
without touching the cache. -/
def invalidateConfigCache (cache : List (String × Option String)) (dir : String) :
    InvalidateResult :=
  if cache.any (invalidateMatches dir) then InvalidateResult.attributeError cache
  else InvalidateResult.ok cache

/- ==== Staleness check (performRemoteCheck, 1083-1180) ==== -/

/-- Remote metadata entry: modification timestamp and size. -/
structure Metadata where
  lastModified : Int
  filesize : Int
  deriving DecidableEq, Repr

/-- The local file the metadata is compared against. -/
structure LocalFile where
  mtime : Int
  size : Int
  deriving DecidableEq, Repr

/-- Modelled from the spec: `isNewerThan` lives in ftpsyncwrapper.py,
which is not under src/; the spec defines newer as remote mtime after
local mtime. -/
def isNewerThan (m : Metadata) (loc : LocalFile) : Bool :=
  loc.mtime < m.lastModified

/-- Modelled from the spec: `isDifferentSizeThan` lives in
ftpsyncwrapper.py, which is not under src/; it holds when the remote size
differs from the local size. -/
def isDifferentSizeThan (m : Metadata) (loc : LocalFile) : Bool :=
  !(m.filesize == loc.size)

structure CheckLists where
  newest : List (String × Metadata)
  oldest : List (String × Metadata)
  every : List (String × Metadata)
  deriving DecidableEq, Repr

/-- The classification loop of `performRemoteCheck`: a newer entry goes
to `newest` and `every`; a not-newer entry goes to `oldest` and
additionally to `every` when its size differs. -/
def classifyEntries (loc : LocalFile) : List (String × Metadata) → CheckLists
  | [] => ⟨[], [], []⟩
  | e :: rest =>
    let r := classifyEntries loc rest
    if isNewerThan e.2 loc then ⟨e :: r.newest, r.oldest, e :: r.every⟩
    else if isDifferentSizeThan e.2 loc then ⟨r.newest, e :: r.oldest, e :: r.every⟩
    else ⟨r.newest, e :: r.oldest, r.every⟩

inductive CheckOutcome where
  | prompt (items : List (String × Metadata))
  | upToDate
  deriving DecidableEq, Repr

/-- The branch after classification: with a non-empty `every` the source
replaces `every` by the whole metadata list, calls
`sorted(every, key=getLastModified)` but discards its result, and then
reverses `every` in place, so the prompted candidates are the metadata
list in reversed arrival order; with an empty `every` a passive
up-to-date status message is emitted instead of a prompt. -/
def remoteCheckOutcome (loc : LocalFile) (metadata : List (String × Metadata)) :
    CheckOutcome :=
  if (classifyEntries loc metadata).every.length > 0 then
    CheckOutcome.prompt metadata.reverse
  else CheckOutcome.upToDate

/-- Descending order on remote modification times (the ranking the spec
prescribes for the prompt list). -/
def sortedDesc : List Int → Bool
  | [] => true
  | [_] => true
  | a :: b :: rest => (b ≤ a) && sortedDesc (b :: rest)

/- ==== Per-connection execute loops (execute methods of the four
command kinds) ==== -/

inductive StepOutcome where
  | ok
  | indexErr
  | eofErr
  | targetExists
  | otherErr
  deriving DecidableEq, Repr

structure LoopResult where
  visited : Nat
  stored : List Nat
  netCalls : Nat
  poolCloses : Nat
  reported : Nat
  loggedOther : Nat
  deriving DecidableEq, Repr

def LoopResult.zero : LoopResult := ⟨0, [], 0, 0, 0, 0⟩

/-- The shared per-connection execute loop of SyncCommandDownload,
SyncCommandRename (its `action` closure; `targetExists` is the
rename-only TargetAlreadyExists handler) and SyncCommandGetMetadata: the
remote call sits directly inside the `try`, so an IndexError skips the
connection silently, an EOFError reports and closes the whole pool, and
any other exception is logged; every handler falls through to the next
connection. -/
def directExecAux (idx : Nat) : List StepOutcome → LoopResult
  | [] => LoopResult.zero
  | o :: rest =>
    let r := directExecAux (idx + 1) rest
    match o with
    | .ok =>
      ⟨r.visited + 1, idx :: r.stored, r.netCalls + 1, r.poolCloses, r.reported, r.loggedOther⟩
    | .indexErr =>
      ⟨r.visited + 1, r.stored, r.netCalls, r.poolCloses, r.reported, r.loggedOther⟩
    | .eofErr =>
      ⟨r.visited + 1, r.stored, r.netCalls + 1, r.poolCloses + 1, r.reported, r.loggedOther⟩
    | .targetExists =>
      ⟨r.visited + 1, r.stored, r.netCalls + 1, r.poolCloses, r.reported + 1, r.loggedOther⟩
    | .otherErr =>
      ⟨r.visited + 1, r.stored, r.netCalls + 1, r.poolCloses, r.reported, r.loggedOther + 1⟩

def directExecLoop (outs : List StepOutcome) : LoopResult :=
  directExecAux 0 outs

inductive UploadOutcome where
  | indexErr
  | putOk
  | putEof
  | putOther
  deriving DecidableEq, Repr

/-- The per-connection loop of SyncCommandUpload.execute: only the pool
indexing sits directly in the outer `try` (IndexError skips the
connection); the `put` runs inside the nested `action()` whose blanket
`except Exception` handler also catches EOFError, so an end-of-stream
during the transfer is logged as an upload failure and the pool is not
closed. -/
def uploadExecAux (idx : Nat) : List UploadOutcome → LoopResult
  | [] => LoopResult.zero
  | o :: rest =>
    let r := uploadExecAux (idx + 1) rest
    match o with
    | .indexErr =>
      ⟨r.visited + 1, r.stored, r.netCalls, r.poolCloses, r.reported, r.loggedOther⟩
    | .putOk =>
      ⟨r.visited + 1, idx :: r.stored, r.netCalls + 1, r.poolCloses, r.reported, r.loggedOther⟩
    | .putEof =>
      ⟨r.visited + 1, r.stored, r.netCalls + 1, r.poolCloses, r.reported, r.loggedOther + 1⟩
    | .putOther =>
      ⟨r.visited + 1, r.stored, r.netCalls + 1, r.poolCloses, r.reported, r.loggedOther + 1⟩

def uploadExecLoop (outs : List UploadOutcome) : LoopResult :=
  uploadExecAux 0 outs

inductive PrecheckOutcome where
  | found
  | absent
  | indexErr
  deriving DecidableEq, Repr

/-- The unguarded pre-existence loop of SyncCommandRename.execute: the
`list` call checking whether the new name already exists remotely has no
surrounding handler, so an IndexError (pool shorter than the config)
propagates and aborts the whole command (`Option.none`); otherwise the
names (indices) with an existing remote entry are collected. -/
def renamePrecheckAux (idx : Nat) : List PrecheckOutcome → Option (List Nat)
  | [] => some []
  | o :: rest =>
    match o with
    | .indexErr => Option.none
    | .found =>
      match renamePrecheckAux (idx + 1) rest with
      | Option.none => Option.none
      | some l => some (idx :: l)
    | .absent => renamePrecheckAux (idx + 1) rest

def renamePrecheck (outs : List PrecheckOutcome) : Option (List Nat) :=
  renamePrecheckAux 0 outs

/- ==== Execute guard clauses (749-759, 880-886, 968-974, 1044-1051) ==== -/

structure GuardResult where
  cancelledMessages : Nat
  proceeded : Bool
  deriving DecidableEq, Repr

/-- The shared prologue of all four execute methods: a closed command, or
one whose filtered connections mapping is empty, prints one Cancelling
diagnostic and returns before the `usingConnections` registration and
before any remote call. -/
def executeGuard (closed : Bool) (connCount : Nat) : GuardResult :=
  if closed then ⟨1, false⟩
  else if connCount = 0 then ⟨1, false⟩
  else ⟨0, true⟩

structure UploadExec where
  cancelled : Nat
  usedPool : Bool
  loopRes : LoopResult
  deriving DecidableEq, Repr

/-- SyncCommandUpload.execute: the guard clauses, then the
`usingConnections` registration and the per-connection loop. -/
def uploadExecute (closed : Bool) (outs : List UploadOutcome) : UploadExec :=
  if closed then ⟨1, false, LoopResult.zero⟩
  else if outs.length = 0 then ⟨1, false, LoopResult.zero⟩
  else ⟨0, true, uploadExecLoop outs⟩

/- ==== Connection filtering (whitelistConnections 672-681,
SyncCommandTransfer constructor 691-726, performRemoteCheck 1099-1110) ==== -/

structure TransferProps where
  upload_on_save : Bool
  ignoreSome : Bool
  ignoreHit : Bool
  download_on_open : Bool
  deriving DecidableEq, Repr

/-- SyncCommand.whitelistConnections: every connection whose name is not
in the whitelist is collected and popped, leaving exactly the
whitelisted names in order. -/
def whitelistConnections (conns : List (String × TransferProps)) (wl : List String) :
    List (String × TransferProps) :=
  conns.filter (fun c => wl.contains c.1)

/-- The removal condition of the SyncCommandTransfer constructor loop:
the `upload_on_save` flag (on-save triggers only), the per-connection
ignore pattern (`ignoreSome` models the pattern being non-null,
`ignoreHit` the regex matching the file path), and the whitelist — whose
clause only applies when the whitelist argument is non-empty. -/
def transferRemoves (onSave disregardIgnore : Bool) (wl : List String)
    (c : String × TransferProps) : Bool :=
  (!c.2.upload_on_save && onSave) ||
  (!disregardIgnore && c.2.ignoreSome && c.2.ignoreHit) ||
  (!wl.isEmpty && !(wl.contains c.1))

def transferFilter (conns : List (String × TransferProps)) (onSave disregardIgnore : Bool)
    (wl : List String) : List (String × TransferProps) :=
  conns.filter (fun c => !transferRemoves onSave disregardIgnore wl c)

/-- performRemoteCheck: with `forced` the per-connection
`download_on_open` collection is skipped and the checking list stays
empty; that list is then passed to `whitelistConnections` on the
GetMetadata command. -/
def checkingList (conns : List (String × TransferProps)) (forced : Bool) : List String :=
  if forced then []
  else (conns.filter (fun c => c.2.download_on_open)).map (fun c => c.1)

/- ======================= Theorems ======================= -/

/-- C2: a delayed on-save upload superseded by a second upload of the same
path before its delay elapses performs exactly one transfer, the second:
each scheduling stores a fresh token, the first delayed action finds its
token stale and returns without transferring, and the second transfers
and pops the map entry. -/
theorem c2_token_supersede (t1 t2 : Nat) (h : t1 ≠ t2) :
    uploadRun ⟨Option.none, []⟩
      [UploadEvent.schedule t1, UploadEvent.schedule t2,
       UploadEvent.fire t1, UploadEvent.fire t2] =
      ⟨Option.none, [t2]⟩ := by
  simp [uploadRun, uploadStep, Ne.symm h]

theorem c2_token_supersede_witness :
    uploadRun ⟨Option.none, []⟩
      [UploadEvent.schedule 0, UploadEvent.schedule 1,
       UploadEvent.fire 0, UploadEvent.fire 1] =
      ⟨Option.none, [1]⟩ :=
  c2_token_supersede 0 1 (by decide)

/-- C3: a merged entry with every key of the presence list valid but the
`passive` key removed makes `verifyConfig` raise a Python KeyError at the
`passive` subscript instead of returning a failure message naming the
key (the fully valid entry verifies, and removing a listed key such as
`username` does return a message naming it). -/
theorem c3_passive_keyerror :
    verifyConfig configFull = VerifyResult.ok ∧
    verifyConfig configNoPassive = VerifyResult.keyError "passive" ∧
    verifyConfig (removeKey configFull "username") =
      VerifyResult.fail "Config is missing a \x7busername\x7d key" := by
  decide

/-- C6: with metadata arriving as A (mtime 10), B (mtime 5), C (mtime 20),
all newer than the local file, the prompt candidates are the reversed
arrival order C, B, A — mtimes 20, 5, 10, not descending — because the
result of the `sorted` call is discarded in the source; when every entry
is same-size-and-not-newer no prompt is produced. -/
theorem c6_unsorted_prompt :
    remoteCheckOutcome ⟨0, 100⟩
        [("A", ⟨10, 1⟩), ("B", ⟨5, 2⟩), ("C", ⟨20, 3⟩)] =
      CheckOutcome.prompt [("C", ⟨20, 3⟩), ("B", ⟨5, 2⟩), ("A", ⟨10, 1⟩)] ∧
    sortedDesc ([("C", (⟨20, 3⟩ : Metadata)), ("B", ⟨5, 2⟩), ("A", ⟨10, 1⟩)].map
        (fun e => e.2.lastModified)) = false ∧
    remoteCheckOutcome ⟨10, 100⟩ [("A", ⟨5, 100⟩)] = CheckOutcome.upToDate := by
  decide

/-- C8: on a cache whose single entry matches the invalidation condition
(key starts with the directory, stored config path is a prefix of the
directory), `invalidateConfigCache` raises AttributeError — dicts have no
`remove` method — and removes nothing; a non-matching cache is left
untouched. -/
theorem c8_attribute_error :
    invalidateConfigCache [("/a/b", some "/")] "/a" =
      InvalidateResult.attributeError [("/a/b", some "/")] ∧
    invalidateConfigCache [("/x/y", some "/x/ftpsync.settings")] "/a" =
      InvalidateResult.ok [("/x/y", some "/x/ftpsync.settings")] := by
  decide

/-- C9: a closed command, or one whose filtered connections mapping is
empty, emits exactly one Cancelling diagnostic and stops: the guard
returns before the `usingConnections` registration, so the loop never
runs, no `put` happens and no network call is made. -/
theorem c9_cancelled_noop (closed : Bool) (outs : List UploadOutcome)
    (h : closed = true ∨ outs = []) :
    executeGuard closed outs.length = ⟨1, false⟩ ∧
    uploadExecute closed outs = ⟨1, false, LoopResult.zero⟩ := by
  rcases h with h | h
  · subst h
    simp [executeGuard, uploadExecute]
  · subst h
    cases closed <;> simp [executeGuard, uploadExecute]

theorem c9_cancelled_noop_witness :
    executeGuard true [UploadOutcome.putOk].length = ⟨1, false⟩ ∧
    uploadExecute true [UploadOutcome.putOk] = ⟨1, false, LoopResult.zero⟩ :=
  c9_cancelled_noop true [UploadOutcome.putOk] (Or.inl rfl)

/-- C1 counterexample: a cached pool whose length and per-connection
hashes pass but whose single handle reports not-alive is rebuilt without
any stale handle being closed — the teardown-on-every-failure part of the
claim is false (only the hash-mismatch branch closes handles). -/
theorem c1_counterexample :
    (getConnection (some [⟨"a", 7, false⟩]) [⟨"a", 7, true⟩]).rebuilt = true ∧
    (getConnection (some [⟨"a", 7, false⟩]) [⟨"a", 7, true⟩]).closedStale = [] := by
  decide

/-- C4 counterexample: resolving a path whose ancestor walk finds no
config returns none but stores nothing in the cache, so an immediately
repeated query walks the ancestors again — the none-found outcome is not
cached, contrary to the claim. -/
theorem c4_counterexample :
    (getConfigFile (fun _ => ["/a", "/"]) (fun _ => false) [] "/a/x.txt").result =
      Option.none ∧
    (getConfigFile (fun _ => ["/a", "/"]) (fun _ => false) [] "/a/x.txt").cache = [] ∧
    (getConfigFile (fun _ => ["/a", "/"]) (fun _ => false)
      ((getConfigFile (fun _ => ["/a", "/"]) (fun _ => false) [] "/a/x.txt").cache)
      "/a/x.txt").walked = true := by
  decide

/-- C7 counterexample: in SyncCommandUpload, an end-of-stream raised by
`put` is caught by the blanket handler of the nested `action` and merely
logged as an upload failure — the pool is not closed, contrary to the
claim that an EOFError closes the whole pool in every kind. -/
theorem c7_counterexample :
    (uploadExecLoop [UploadOutcome.putEof]).poolCloses = 0 ∧
    (uploadExecLoop [UploadOutcome.putEof]).loggedOther = 1 ∧
    (uploadExecLoop [UploadOutcome.putEof]).visited = 1 := by
  decide

/-- The cached pool is returned unreconnected exactly when the length,
per-connection hash and liveness checks all pass. -/
theorem getConnection_hit_iff (entry : List Handle) (decls : List ConnDecl) :
    (getConnection (some entry) decls).rebuilt = false ↔
      decls.length ≤ entry.length ∧ hashesMatch entry decls = true ∧
        entry.all (fun h => h.alive) = true := by
  unfold getConnection
  dsimp only
  split_ifs with h1 h2 h3
  · constructor
    · intro hf; simp at hf
    · rintro ⟨hle, -, -⟩; omega
  · constructor
    · intro _; exact ⟨by omega, h2, h3⟩
    · intro _; rfl
  · constructor
    · intro hf; simp at hf
    · rintro ⟨-, -, hall⟩; exact absurd hall h3
  · constructor
    · intro hf; simp at hf
    · rintro ⟨-, hm, -⟩; exact absurd hm h2

/-- The rebuild loop produces one fresh alive handle per declared
connection when every build succeeds and the declared names are
distinct. -/
theorem buildPoolAux_fresh :
    ∀ (decls : List ConnDecl) (acc : List Handle),
      (∀ d ∈ decls, d.buildOk = true) →
      (∀ d ∈ decls, ∀ c ∈ acc, c.name ≠ d.name) →
      (decls.map ConnDecl.name).Nodup →
      buildPoolAux acc decls = acc ++ decls.map mkHandle
  | [], acc, _, _, _ => by simp [buildPoolAux]
  | d :: rest, acc, hok, hfresh, hnd => by
    have hdok : d.buildOk = true := hok d (List.mem_cons_self d rest)
    have hany : acc.any (fun c => c.name == d.name) = false := by
      rw [List.any_eq_false]
      intro c hc
      simpa using hfresh d (List.mem_cons_self d rest) c hc
    have hnd' : (rest.map ConnDecl.name).Nodup := by
      simpa using (List.nodup_cons.mp (by simpa using hnd)).2
    have hdn : d.name ∉ rest.map ConnDecl.name :=
      (List.nodup_cons.mp (by simpa using hnd)).1
    have hrec := buildPoolAux_fresh rest (acc ++ [mkHandle d])
      (fun x hx => hok x (List.mem_cons_of_mem d hx))
      (by
        intro x hx c hc
        rcases List.mem_append.mp hc with hc | hc
        · exact hfresh x (List.mem_cons_of_mem d hx) c hc
        · have hcd : c = mkHandle d := by simpa using hc
          subst hcd
          intro hname
          exact hdn (by
            rw [show (mkHandle d).name = d.name from rfl] at hname
            rw [hname]
            exact List.mem_map_of_mem ConnDecl.name hx))
      hnd'
    simp only [buildPoolAux, hdok, if_true, hany, Bool.false_eq_true, if_false]
    rw [hrec]
    simp

theorem buildPool_eq (decls : List ConnDecl)
    (hok : ∀ d ∈ decls, d.buildOk = true)
    (hnd : (decls.map ConnDecl.name).Nodup) :
    buildPool decls = decls.map mkHandle := by
  have h := buildPoolAux_fresh decls [] hok (by intro d _ c hc; cases hc) hnd
  simpa [buildPool] using h

theorem hashesMatch_mkHandle (decls : List ConnDecl) :
    hashesMatch (decls.map mkHandle) decls = true := by
  induction decls with
  | nil => rfl
  | cons d rest ih => simp [hashesMatch, mkHandle, ih]

theorem allAlive_mkHandle (decls : List ConnDecl) :
    (decls.map mkHandle).all (fun h => h.alive) = true := by
  induction decls with
  | nil => rfl
  | cons d rest ih => simp [mkHandle, ih]

/-- Changing the properties of one declared connection breaks the
per-index hash comparison against the previously built pool. -/
theorem hashesMatch_set_ne :
    ∀ (decls : List ConnDecl) (i : Nat) (d' : ConnDecl) (hi : i < decls.length),
      (decls.get ⟨i, hi⟩).propsHash ≠ d'.propsHash →
      hashesMatch (decls.map mkHandle) (decls.set i d') = false
  | [], i, d', hi, _ => absurd hi (by simp)
  | d :: rest, 0, d', _, hne => by
    have hb : (d.propsHash == d'.propsHash) = false := by simpa using hne
    simp [List.set, hashesMatch, mkHandle, hb]
  | d :: rest, i + 1, d', hi, hne => by
    have hi' : i < rest.length := by simpa using hi
    have hrec := hashesMatch_set_ne rest i d' hi' hne
    simp [List.set, hashesMatch, mkHandle, hrec]

/-- C1 (amended): the cached pool is returned without reconnecting iff
its length is at least the declared count, every per-connection config
hash matches, and every handle is alive; on a hash mismatch (length check
passed) every stale handle is closed before the rebuild, while a
too-short entry or a dead handle triggers the rebuild without closing
anything; a pool freshly rebuilt from fully-building, distinctly named
declarations is reused unchanged on the next resolution, and changing any
single declared connection's properties invalidates and rebuilds. -/
theorem c1_amended :
    (∀ (entry : List Handle) (decls : List ConnDecl),
      ((getConnection (some entry) decls).rebuilt = false ↔
        decls.length ≤ entry.length ∧ hashesMatch entry decls = true ∧
          entry.all (fun h => h.alive) = true) ∧
      ((getConnection (some entry) decls).rebuilt = false →
        (getConnection (some entry) decls).pool = entry) ∧
      (decls.length ≤ entry.length → hashesMatch entry decls = false →
        (getConnection (some entry) decls).closedStale = entry) ∧
      (hashesMatch entry decls = true →
        (getConnection (some entry) decls).closedStale = []) ∧
      (entry.length < decls.length →
        (getConnection (some entry) decls).closedStale = [])) ∧
    (∀ decls : List ConnDecl,
      (∀ d ∈ decls, d.buildOk = true) →
      (decls.map ConnDecl.name).Nodup →
      (getConnection (some (getConnection Option.none decls).pool) decls).rebuilt =
        false) ∧
    (∀ (decls : List ConnDecl) (i : Nat) (d' : ConnDecl) (hi : i < decls.length),
      (∀ d ∈ decls, d.buildOk = true) →
      (decls.map ConnDecl.name).Nodup →
      (decls.get ⟨i, hi⟩).propsHash ≠ d'.propsHash →
      (getConnection (some (getConnection Option.none decls).pool)
        (decls.set i d')).rebuilt = true) := by
  refine ⟨?_, ?_, ?_⟩
  · intro entry decls
    refine ⟨getConnection_hit_iff entry decls, ?_, ?_, ?_, ?_⟩
    · unfold getConnection
      dsimp only
      split_ifs <;> intro hf <;> first | rfl | simp at hf
    · intro hle hmf
      unfold getConnection
      dsimp only
      split_ifs <;> first | rfl | omega | simp_all
    · intro hm
      unfold getConnection
      dsimp only
      split_ifs <;> first | rfl | simp_all
    · intro hlt
      unfold getConnection
      dsimp only
      rw [if_pos hlt]
  · intro decls hok hnd
    have hb : (getConnection Option.none decls).pool = decls.map mkHandle := by
      simp [getConnection, buildPool_eq decls hok hnd]
    rw [hb, getConnection_hit_iff]
    exact ⟨by simp, hashesMatch_mkHandle decls, allAlive_mkHandle decls⟩
  · intro decls i d' hi hok hnd hne
    have hb : (getConnection Option.none decls).pool = decls.map mkHandle := by
      simp [getConnection, buildPool_eq decls hok hnd]
    rw [hb]
    have hm := hashesMatch_set_ne decls i d' hi hne
    by_cases hr :
        (getConnection (some (decls.map mkHandle)) (decls.set i d')).rebuilt = false
    · rcases (getConnection_hit_iff (decls.map mkHandle) (decls.set i d')).mp hr with
        ⟨-, hm2, -⟩
      rw [hm] at hm2
      cases hm2
    · simpa using hr

theorem c1_amended_witness :
    (getConnection (some [⟨"a", 5, true⟩]) [⟨"a", 5, true⟩]).rebuilt = false ∧
    (getConnection (some (getConnection Option.none [⟨"a", 5, true⟩]).pool)
      [⟨"a", 5, true⟩]).rebuilt = false ∧
    (getConnection (some (getConnection Option.none [⟨"a", 5, true⟩]).pool)
      ([⟨"a", 5, true⟩].set 0 ⟨"a", 6, true⟩)).rebuilt = true := by
  refine ⟨?_, ?_, ?_⟩
  · exact (c1_amended.1 [⟨"a", 5, true⟩] [⟨"a", 5, true⟩]).1.mpr (by decide)
  · exact c1_amended.2.1 [⟨"a", 5, true⟩] (by decide) (by decide)
  · exact c1_amended.2.2 [⟨"a", 5, true⟩] 0 ⟨"a", 6, true⟩ (by decide) (by decide)
      (by decide) (by decide)

/-- C4 (amended): a found config-file path is cached keyed by the queried
path and an immediately repeated query returns the identical result from
the cache without walking; the none-found outcome is returned without
being cached, so a repeated query for a config-less path walks the
ancestor folders again. -/
theorem c4_amended (folders : String → List String) (hasConfig : String → Bool)
    (cache : List (String × Option String)) (p : String)
    (hmiss : lookupAssoc cache p = Option.none) :
    (∀ folder, (folders p).find? hasConfig = some folder →
      getConfigFile folders hasConfig cache p =
        ⟨some (folder ++ "/" ++ configName),
         (p, some (folder ++ "/" ++ configName)) :: cache, true⟩ ∧
      getConfigFile folders hasConfig
          ((p, some (folder ++ "/" ++ configName)) :: cache) p =
        ⟨some (folder ++ "/" ++ configName),
         (p, some (folder ++ "/" ++ configName)) :: cache, false⟩) ∧
    ((folders p).find? hasConfig = Option.none →
      getConfigFile folders hasConfig cache p = ⟨Option.none, cache, true⟩) := by
  constructor
  · intro folder hf
    have hne : (folders p).isEmpty = false := by
      cases hfs : folders p with
      | nil => rw [hfs] at hf; simp at hf
      | cons a l => simp
    constructor
    · simp [getConfigFile, hmiss, hne, hf]
    · have hhit : lookupAssoc ((p, some (folder ++ "/" ++ configName)) :: cache) p =
          some (some (folder ++ "/" ++ configName)) := by
        simp [lookupAssoc, List.find?]
      simp [getConfigFile, hhit]
  · intro hf
    cases hemp : (folders p).isEmpty
    · simp [getConfigFile, hmiss, hemp, hf]
    · simp [getConfigFile, hmiss, hemp]

theorem c4_amended_witness :
    getConfigFile (fun _ => ["/a"]) (fun _ => true) [] "/a/x" =
      ⟨some ("/a" ++ "/" ++ configName),
       [("/a/x", some ("/a" ++ "/" ++ configName))], true⟩ ∧
    getConfigFile (fun _ => ["/a"]) (fun _ => true)
        [("/a/x", some ("/a" ++ "/" ++ configName))] "/a/x" =
      ⟨some ("/a" ++ "/" ++ configName),
       [("/a/x", some ("/a" ++ "/" ++ configName))], false⟩ := by
  have h := c4_amended (fun _ => ["/a"]) (fun _ => true) [] "/a/x" rfl
  exact h.1 "/a" rfl

theorem mem_newest_iff (loc : LocalFile) (md : List (String × Metadata))
    (e : String × Metadata) :
    e ∈ (classifyEntries loc md).newest ↔ e ∈ md ∧ isNewerThan e.2 loc = true := by
  induction md with
  | nil => simp [classifyEntries]
  | cons x rest ih =>
    by_cases hx : isNewerThan x.2 loc = true
    · simp only [classifyEntries, if_pos hx, List.mem_cons]
      constructor
      · rintro (rfl | h)
        · exact ⟨Or.inl rfl, hx⟩
        · rcases ih.mp h with ⟨hm, hn⟩
          exact ⟨Or.inr hm, hn⟩
      · rintro ⟨hor, hn⟩
        rcases hor with rfl | hm
        · exact Or.inl rfl
        · exact Or.inr (ih.mpr ⟨hm, hn⟩)
    · have hnewest : (classifyEntries loc (x :: rest)).newest =
          (classifyEntries loc rest).newest := by
        simp only [classifyEntries, if_neg hx]
        split <;> rfl
      rw [hnewest, ih]
      constructor
      · rintro ⟨hm, hn⟩
        exact ⟨List.mem_cons_of_mem x hm, hn⟩
      · rintro ⟨hor, hn⟩
        rcases List.mem_cons.mp hor with rfl | hm
        · exact absurd hn hx
        · exact ⟨hm, hn⟩

theorem mem_every_not_newer (loc : LocalFile) (md : List (String × Metadata))
    (e : String × Metadata) (hn : isNewerThan e.2 loc = false) :
    e ∈ (classifyEntries loc md).every ↔
      e ∈ md ∧ isDifferentSizeThan e.2 loc = true := by
  induction md with
  | nil => simp [classifyEntries]
  | cons x rest ih =>
    by_cases hx : isNewerThan x.2 loc = true
    · simp only [classifyEntries, if_pos hx, List.mem_cons]
      constructor
      · rintro (rfl | h)
        · rw [hx] at hn; cases hn
        · rcases ih.mp h with ⟨hm, hd⟩
          exact ⟨Or.inr hm, hd⟩
      · rintro ⟨hor, hd⟩
        rcases hor with rfl | hm
        · rw [hx] at hn; cases hn
        · exact Or.inr (ih.mpr ⟨hm, hd⟩)
    · by_cases hdx : isDifferentSizeThan x.2 loc = true
      · simp only [classifyEntries, if_neg hx, if_pos hdx, List.mem_cons]
        constructor
        · rintro (rfl | h)
          · exact ⟨Or.inl rfl, hdx⟩
          · rcases ih.mp h with ⟨hm, hd⟩
            exact ⟨Or.inr hm, hd⟩
        · rintro ⟨hor, hd⟩
          rcases hor with rfl | hm
          · exact Or.inl rfl
          · exact Or.inr (ih.mpr ⟨hm, hd⟩)
      · have hevery : (classifyEntries loc (x :: rest)).every =
            (classifyEntries loc rest).every := by
          simp only [classifyEntries, if_neg hx, if_neg hdx]
        rw [hevery, ih]
        constructor
        · rintro ⟨hm, hd⟩
          exact ⟨List.mem_cons_of_mem x hm, hd⟩
        · rintro ⟨hor, hd⟩
          rcases List.mem_cons.mp hor with rfl | hm
          · exact absurd hd hdx
          · exact ⟨hm, hd⟩

/-- C5: an entry is classified newer iff its remote mtime is after the
local mtime; a not-newer entry is added to the prompt-triggering list iff
its size differs; and an entry with a later mtime and identical size is
classified newer, appears in the prompt, and is not flagged by the
different-size condition. -/
theorem c5_classification (loc : LocalFile) (md : List (String × Metadata))
    (e : String × Metadata) :
    (e ∈ (classifyEntries loc md).newest ↔ e ∈ md ∧ isNewerThan e.2 loc = true) ∧
    (isNewerThan e.2 loc = false →
      (e ∈ (classifyEntries loc md).every ↔
        e ∈ md ∧ isDifferentSizeThan e.2 loc = true)) ∧
    (("A", (⟨20, 100⟩ : Metadata)) ∈
        (classifyEntries ⟨10, 100⟩ [("A", ⟨20, 100⟩)]).newest ∧
      remoteCheckOutcome ⟨10, 100⟩ [("A", ⟨20, 100⟩)] =
        CheckOutcome.prompt [("A", ⟨20, 100⟩)] ∧
      isDifferentSizeThan (⟨20, 100⟩ : Metadata) ⟨10, 100⟩ = false) :=
  ⟨mem_newest_iff loc md e, fun hn => mem_every_not_newer loc md e hn, by decide⟩

theorem c5_classification_witness :
    ("B", (⟨5, 7⟩ : Metadata)) ∈
      (classifyEntries ⟨10, 100⟩ [("B", ⟨5, 7⟩)]).every := by
  have h := c5_classification ⟨10, 100⟩ [("B", ⟨5, 7⟩)] ("B", ⟨5, 7⟩)
  exact (h.2.1 (by decide)).mpr ⟨by decide, by decide⟩

theorem directExecAux_spec (outs : List StepOutcome) :
    ∀ idx : Nat,
      (directExecAux idx outs).visited = outs.length ∧
      (directExecAux idx outs).poolCloses =
        outs.countP (fun o => o == StepOutcome.eofErr) ∧
      (directExecAux idx outs).loggedOther =
        outs.countP (fun o => o == StepOutcome.otherErr) ∧
      (directExecAux idx outs).netCalls =
        outs.countP (fun o => !(o == StepOutcome.indexErr)) := by
  induction outs with
  | nil => intro idx; simp [directExecAux, LoopResult.zero]
  | cons o rest ih =>
    intro idx
    rcases ih (idx + 1) with ⟨h1, h2, h3, h4⟩
    cases o <;>
      simp [directExecAux, List.countP_cons, h1, h2, h3, h4]

theorem uploadExecAux_spec (outs : List UploadOutcome) :
    ∀ idx : Nat,
      (uploadExecAux idx outs).visited = outs.length ∧
      (uploadExecAux idx outs).poolCloses = 0 ∧
      (uploadExecAux idx outs).loggedOther =
        outs.countP
          (fun o => (o == UploadOutcome.putEof) || (o == UploadOutcome.putOther)) ∧
      (uploadExecAux idx outs).netCalls =
        outs.countP (fun o => !(o == UploadOutcome.indexErr)) := by
  induction outs with
  | nil => intro idx; simp [uploadExecAux, LoopResult.zero]
  | cons o rest ih =>
    intro idx
    rcases ih (idx + 1) with ⟨h1, h2, h3, h4⟩
    cases o <;>
      simp [uploadExecAux, List.countP_cons, h1, h2, h3, h4]

theorem renamePrecheckAux_abort (outs : List PrecheckOutcome) :
    ∀ idx : Nat, PrecheckOutcome.indexErr ∈ outs →
      renamePrecheckAux idx outs = Option.none := by
  induction outs with
  | nil => intro idx h; cases h
  | cons o rest ih =>
    intro idx h
    cases o
    · rcases List.mem_cons.mp h with h | h
      · exact absurd h (by decide)
      · simp [renamePrecheckAux, ih (idx + 1) h]
    · rcases List.mem_cons.mp h with h | h
      · exact absurd h (by decide)
      · exact ih (idx + 1) h
    · rfl

/-- C7 (amended): in the Download, GetMetadata and Rename-action loops an
IndexError skips the connection silently, an EOFError closes the pool and
reports, any other exception is logged, and the loop always visits every
connection; in the Upload loop only the pool indexing is guarded — a
transfer failure, end-of-stream included, is logged by the nested action
without closing the pool, the loop still visiting every connection — and
Rename's unguarded pre-existence check aborts the command on an
IndexError. -/
theorem c7_amended :
    (∀ outs : List StepOutcome,
      (directExecLoop outs).visited = outs.length ∧
      (directExecLoop outs).poolCloses =
        outs.countP (fun o => o == StepOutcome.eofErr) ∧
      (directExecLoop outs).loggedOther =
        outs.countP (fun o => o == StepOutcome.otherErr) ∧
      (directExecLoop outs).netCalls =
        outs.countP (fun o => !(o == StepOutcome.indexErr))) ∧
    (∀ outs : List UploadOutcome,
      (uploadExecLoop outs).visited = outs.length ∧
      (uploadExecLoop outs).poolCloses = 0 ∧
      (uploadExecLoop outs).loggedOther =
        outs.countP
          (fun o => (o == UploadOutcome.putEof) || (o == UploadOutcome.putOther)) ∧
      (uploadExecLoop outs).netCalls =
        outs.countP (fun o => !(o == UploadOutcome.indexErr))) ∧
    (∀ outs : List PrecheckOutcome, PrecheckOutcome.indexErr ∈ outs →
      renamePrecheck outs = Option.none) :=
  ⟨fun outs => directExecAux_spec outs 0,
   fun outs => uploadExecAux_spec outs 0,
   fun outs h => renamePrecheckAux_abort outs 0 h⟩

theorem c7_amended_witness :
    renamePrecheck [PrecheckOutcome.indexErr] = Option.none ∧
    (directExecLoop [StepOutcome.eofErr]).poolCloses = 1 := by
  constructor
  · exact c7_amended.2.2 [PrecheckOutcome.indexErr] (by decide)
  · exact (c7_amended.1 [StepOutcome.eofErr]).2.1.trans (by decide)

theorem whitelistConnections_nil (conns : List (String × TransferProps)) :
    whitelistConnections conns [] = [] := by
  induction conns with
  | nil => rfl
  | cons c rest ih =>
    simp only [whitelistConnections, List.filter_cons, List.contains_nil,
      Bool.false_eq_true, if_false]
    exact ih

theorem transferFilter_empty_whitelist (conns : List (String × TransferProps)) :
    transferFilter conns false true [] = conns := by
  induction conns with
  | nil => rfl
  | cons c rest ih =>
    simp only [transferFilter, List.filter_cons] at ih ⊢
    simp [transferRemoves, ih]

/-- C10: for a config declaring at least one connection, whitelisting
with an empty list removes every connection (so the forced remote check,
whose checking list stays empty, runs GetMetadata over zero connections),
whereas the transfer-constructor filter with an empty whitelist argument
keeps all connections. -/
theorem c10_whitelist (conns : List (String × TransferProps)) (h : conns ≠ []) :
    whitelistConnections conns [] = [] ∧
    whitelistConnections conns (checkingList conns true) = [] ∧
    transferFilter conns false true [] = conns := by
  refine ⟨whitelistConnections_nil conns, ?_, transferFilter_empty_whitelist conns⟩
  simp only [checkingList, if_true]
  exact whitelistConnections_nil conns

theorem c10_whitelist_witness :
    whitelistConnections [("A", ⟨true, false, false, true⟩)] [] = [] ∧
    whitelistConnections [("A", ⟨true, false, false, true⟩)]
      (checkingList [("A", ⟨true, false, false, true⟩)] true) = [] ∧
    transferFilter [("A", ⟨true, false, false, true⟩)] false true [] =
      [("A", ⟨true, false, false, true⟩)] :=
  c10_whitelist [("A", ⟨true, false, false, true⟩)] (by decide)

end FTPSync
